import Mathlib

/-
Verification development for the dynamic data-store ingestion scripts
(`big_query_insert.py` and `mysql_insert.py`): a shallow embedding of the
type-coercion pipeline (`safe_convert_for_parquet` / `safe_convert_for_mysql`),
the schema derivation (`get_bigquery_type` / `get_mysql_type`) and the two
`insert_database` entry points, together with theorems about the claims of
the specification.
-/

set_option maxHeartbeats 1000000

namespace DataStore

/-! ### Calendar timestamps

`pd.to_datetime(col, format="%Y-%m-%d %H:%M:%S", errors='coerce')` followed by
`.dt.strftime('%Y-%m-%d %H:%M:%S')` is modelled by an executable parser and
formatter over the fixed format.  A parsed timestamp is a six-field record;
`strptime` accepts 1-2 digit month/day/hour/minute/second fields (1-4 digit
year) and rejects calendar-invalid dates, which the parser mirrors. -/

structure DT where
  year : Nat
  month : Nat
  day : Nat
  hour : Nat
  minute : Nat
  second : Nat
deriving DecidableEq, Repr

def isLeap (y : Nat) : Bool := (y % 4 == 0 && y % 100 != 0) || y % 400 == 0

def daysInMonth (y m : Nat) : Nat :=
  if m == 2 then (if isLeap y then 29 else 28)
  else if m == 4 || m == 6 || m == 9 || m == 11 then 30
  else 31

def DT.valid (d : DT) : Bool :=
  1 ≤ d.year && d.year ≤ 9999 && 1 ≤ d.month && d.month ≤ 12 &&
  1 ≤ d.day && d.day ≤ daysInMonth d.year d.month &&
  d.hour ≤ 23 && d.minute ≤ 59 && d.second ≤ 59

def digitChar (n : Nat) : Char := Char.ofNat (48 + n)

def digitVal (c : Char) : Nat := c.toNat - 48

/-- Two-digit zero-padded rendering of `n % 100` (as `%02d` does for `n < 100`). -/
def pad2 (n : Nat) : List Char := [digitChar (n / 10 % 10), digitChar (n % 10)]

/-- Four-digit zero-padded rendering of `n % 10000` (as `%04d` does for `n < 10000`). -/
def pad4 (n : Nat) : List Char := pad2 (n / 100) ++ pad2 (n % 100)

def readNat (cs : List Char) : Nat := cs.foldl (fun a c => 10 * a + digitVal c) 0

def spanDigits : List Char → List Char × List Char
  | [] => ([], [])
  | c :: cs =>
    if c.isDigit then
      let p := spanDigits cs
      (c :: p.1, p.2)
    else ([], c :: cs)

/-- The character sequence `strftime('%Y-%m-%d %H:%M:%S')` produces. -/
def fmtChars (d : DT) : List Char :=
  pad4 d.year ++ '-' :: (pad2 d.month ++ '-' :: (pad2 d.day ++ ' ' ::
    (pad2 d.hour ++ ':' :: (pad2 d.minute ++ ':' :: pad2 d.second))))

/-- Parser for `strptime('%Y-%m-%d %H:%M:%S')`: each numeric field is a
nonempty digit run (at most 4 digits for the year, at most 2 otherwise),
fields are joined by the literal separators, the whole input must be
consumed, and the resulting date must be calendar-valid. -/
def parseChars (cs : List Char) : Option DT :=
  let p0 := spanDigits cs
  if p0.1.length = 0 ∨ 4 < p0.1.length then none else
  match p0.2 with
  | '-' :: r1 =>
    let p1 := spanDigits r1
    if p1.1.length = 0 ∨ 2 < p1.1.length then none else
    match p1.2 with
    | '-' :: r2 =>
      let p2 := spanDigits r2
      if p2.1.length = 0 ∨ 2 < p2.1.length then none else
      match p2.2 with
      | ' ' :: r3 =>
        let p3 := spanDigits r3
        if p3.1.length = 0 ∨ 2 < p3.1.length then none else
        match p3.2 with
        | ':' :: r4 =>
          let p4 := spanDigits r4
          if p4.1.length = 0 ∨ 2 < p4.1.length then none else
          match p4.2 with
          | ':' :: r5 =>
            let p5 := spanDigits r5
            if p5.1.length = 0 ∨ 2 < p5.1.length then none else
            match p5.2 with
            | [] =>
              let d : DT := ⟨readNat p0.1, readNat p1.1, readNat p2.1,
                             readNat p3.1, readNat p4.1, readNat p5.1⟩
              if d.valid then some d else none
            | _ => none
          | _ => none
        | _ => none
      | _ => none
    | _ => none
  | _ => none

def formatDT (d : DT) : String := (fmtChars d).asString

def parseDTs (s : String) : Option DT := parseChars s.toList

/-! #### Parser & formatter lemmas -/

theorem digitChar_isDigit : ∀ k, k < 10 → (digitChar k).isDigit = true := by decide

theorem digitVal_digitChar : ∀ k, k < 10 → digitVal (digitChar k) = k := by decide

theorem pad2_mem_digit (n : Nat) : ∀ c ∈ pad2 n, c.isDigit = true := by
  intro c hc
  simp only [pad2, List.mem_cons, List.mem_singleton, List.not_mem_nil, or_false] at hc
  rcases hc with h | h <;> subst h <;> exact digitChar_isDigit _ (by omega)

theorem pad4_mem_digit (n : Nat) : ∀ c ∈ pad4 n, c.isDigit = true := by
  intro c hc
  simp only [pad4, List.mem_append] at hc
  rcases hc with h | h <;> exact pad2_mem_digit _ _ h

theorem pad2_length (n : Nat) : (pad2 n).length = 2 := rfl

theorem pad4_length (n : Nat) : (pad4 n).length = 4 := rfl

theorem readNat_pad2 (n : Nat) (h : n < 100) : readNat (pad2 n) = n := by
  simp only [readNat, pad2, List.foldl,
    digitVal_digitChar _ (Nat.mod_lt _ (by omega)),
    digitVal_digitChar _ (Nat.mod_lt _ (by omega))]
  omega

theorem readNat_pad4 (n : Nat) (h : n < 10000) : readNat (pad4 n) = n := by
  simp only [readNat, pad4, pad2, List.cons_append, List.nil_append, List.foldl,
    digitVal_digitChar _ (Nat.mod_lt _ (by omega))]
  omega

theorem spanDigits_append_cons (ds : List Char) (c : Char) (r : List Char)
    (hd : ∀ x ∈ ds, x.isDigit = true) (hc : c.isDigit = false) :
    spanDigits (ds ++ c :: r) = (ds, c :: r) := by
  induction ds with
  | nil => simp [spanDigits, hc]
  | cons a t ih =>
    have ha : a.isDigit = true := hd a (List.mem_cons_self a t)
    have ht : ∀ x ∈ t, x.isDigit = true := fun x hx => hd x (List.mem_cons_of_mem a hx)
    simp [spanDigits, ha, ih ht]

theorem spanDigits_all (ds : List Char) (hd : ∀ x ∈ ds, x.isDigit = true) :
    spanDigits ds = (ds, []) := by
  induction ds with
  | nil => rfl
  | cons a t ih =>
    have ha : a.isDigit = true := hd a (List.mem_cons_self a t)
    have ht : ∀ x ∈ t, x.isDigit = true := fun x hx => hd x (List.mem_cons_of_mem a hx)
    simp [spanDigits, ha, ih ht]

theorem daysInMonth_le_31 (y m : Nat) : daysInMonth y m ≤ 31 := by
  unfold daysInMonth
  split <;> [split <;> omega; (split <;> omega)]

/-- A calendar-valid timestamp is recovered exactly from its canonical rendering. -/
theorem parseChars_fmtChars (d : DT) (h : d.valid = true) :
    parseChars (fmtChars d) = some d := by
  obtain ⟨y, mo, dy, hh, mi, ss⟩ := d
  simp only [DT.valid, Bool.and_eq_true, decide_eq_true_eq] at h
  obtain ⟨⟨⟨⟨⟨⟨⟨⟨hy1, hy2⟩, hm1⟩, hm2⟩, hd1⟩, hd2⟩, hh1⟩, hmi⟩, hss⟩ := h
  have hdy31 : dy ≤ 31 := le_trans hd2 (daysInMonth_le_31 y mo)
  unfold fmtChars parseChars
  rw [spanDigits_append_cons _ _ _ (pad4_mem_digit y) (by decide)]
  simp only [pad4_length, readNat_pad4 y (by omega)]
  rw [spanDigits_append_cons _ _ _ (pad2_mem_digit mo) (by decide)]
  simp only [pad2_length, readNat_pad2 mo (by omega)]
  rw [spanDigits_append_cons _ _ _ (pad2_mem_digit dy) (by decide)]
  simp only [pad2_length, readNat_pad2 dy (by omega)]
  rw [spanDigits_append_cons _ _ _ (pad2_mem_digit hh) (by decide)]
  simp only [pad2_length, readNat_pad2 hh (by omega)]
  rw [spanDigits_append_cons _ _ _ (pad2_mem_digit mi) (by decide)]
  simp only [pad2_length, readNat_pad2 mi (by omega)]
  rw [spanDigits_all _ (pad2_mem_digit ss)]
  simp only [pad2_length, readNat_pad2 ss (by omega)]
  have hv : DT.valid ⟨y, mo, dy, hh, mi, ss⟩ = true := by
    simp only [DT.valid, Bool.and_eq_true, decide_eq_true_eq]
    exact ⟨⟨⟨⟨⟨⟨⟨⟨hy1, hy2⟩, hm1⟩, hm2⟩, hd1⟩, hd2⟩, hh1⟩, hmi⟩, hss⟩
  simp [hv]

/-- Whatever the parser accepts is calendar-valid. -/
theorem parseChars_valid (cs : List Char) (d : DT) (h : parseChars cs = some d) :
    d.valid = true := by
  simp only [parseChars] at h
  repeat' split at h
  all_goals simp_all

theorem parseDTs_formatDT (d : DT) (h : d.valid = true) :
    parseDTs (formatDT d) = some d := by
  show parseChars (String.toList (List.asString (fmtChars d))) = some d
  rw [show String.toList (List.asString (fmtChars d)) = fmtChars d from rfl]
  exact parseChars_fmtChars d h

theorem parseDTs_valid (s : String) (d : DT) (h : parseDTs s = some d) :
    d.valid = true := parseChars_valid _ _ h

/-! ### Cell values and column model

A pandas cell is modelled by `Value`.  The four flavours of missing value
(`float('nan')`, `None`, `pd.NaT`, `pd.NA`) differ only in how `astype(str)`
renders them, so they share one constructor with a kind tag.  Floats are
modelled as rationals (the repository only ever asks whether a float is
integral and renders it as text); a composite (list/dict/set/tuple) carries
its Python `str()` rendering, which is all the repository uses of it. -/

inductive NullKind | nan | pynone | nat_kind | na
deriving DecidableEq, Repr

inductive Value
  | vnull (k : NullKind)
  | vint (n : Int)
  | vfloat (q : Rat)
  | vbool (b : Bool)
  | vstr (s : String)
  | vdt (d : DT)
  | vtd (seconds : Rat)
  | vcomp (s : String)
deriving DecidableEq, Repr

/-- Pandas dtypes that can reach the coercers. `int64nullable` is the `Int64`
extension dtype; `intp` the plain `int64`; `other` covers any remaining dtype
(the source's final `else`). -/
inductive DType
  | float | intp | int64nullable | boolp | object | category | datetime | timedelta | other
deriving DecidableEq, Repr

structure Column where
  name : String
  dtype : DType
  vals : List Value
deriving DecidableEq, Repr

def Value.isNull : Value → Bool
  | .vnull _ => true
  | _ => false

/-- `dropna()`: the non-null values of a column, in order. -/
def nonNulls (vs : List Value) : List Value := vs.filter (fun v => !v.isNull)

/-- `str(x)` / `astype(str)` rendering of a single cell.  Missing values render
as `'nan'`, `'None'`, `'NaT'`, `'<NA>'` respectively; booleans as Python
booleans; a whole-second timestamp as its canonical string (as `str(Timestamp)`
does). -/
def decimalDigits : Nat → Nat → Nat → List Char
  | _, _, 0 => []
  | num, den, fuel + 1 =>
    if num = 0 then []
    else digitChar (num * 10 / den) :: decimalDigits (num * 10 % den) den fuel

/-- `str()` of a Python float, modelled on the exact decimal value: integer
part, a dot, and the fraction digits (`.0` when the value is integral, as
Python prints). -/
def strOfFloat (q : Rat) : String :=
  let n : Nat := q.num.natAbs
  let ip : Nat := n / q.den
  let fr : List Char := decimalDigits (n % q.den) q.den 17
  (if q.num < 0 then "-" else "") ++ toString ip ++ "." ++
    (if fr.isEmpty then "0" else fr.asString)

/-- `str()` of a `pd.Timedelta` (`'X days HH:MM:SS'` for whole seconds). -/
def strOfTimedelta (q : Rat) : String :=
  let n : Nat := q.num.natAbs
  (if q.num < 0 then "-" else "") ++ toString (n / 86400) ++ " days " ++
    (pad2 (n % 86400 / 3600) ++ ':' :: pad2 (n % 3600 / 60) ++ ':' :: pad2 (n % 60)).asString

def pyStr : Value → String
  | .vnull .nan => "nan"
  | .vnull .pynone => "None"
  | .vnull .nat_kind => "NaT"
  | .vnull .na => "<NA>"
  | .vint n => toString n
  | .vfloat q => strOfFloat q
  | .vbool b => cond b "True" "False"
  | .vstr s => s
  | .vdt d => formatDT d
  | .vtd q => strOfTimedelta q
  | .vcomp s => s

/-! ### The per-column coercion

`safe_convert_for_parquet` (big_query_insert.py lines 14-74) and
`safe_convert_for_mysql` (mysql_insert.py lines 17-79) are the same function
except for the non-integral-float branch; `Backend` selects it. -/

inductive Backend | bq | mysql
deriving DecidableEq, Repr

/-- `df[column].astype(str)`: every cell is rendered by `str()` and the dtype
becomes `object`. -/
def astypeStr (c : Column) : Column :=
  ⟨c.name, .object, c.vals.map (fun v => .vstr (pyStr v))⟩

/-- `x.is_integer()` over the values a float column can hold. -/
def isIntegral : Value → Bool
  | .vfloat q => q.den == 1
  | .vint _ => true
  | _ => false

/-- `astype('Int64')` on an all-integral float column: floats become integers,
missing values become `pd.NA`. -/
def toIntVal : Value → Value
  | .vfloat q => .vint q.num
  | .vint n => .vint n
  | .vnull _ => .vnull .na
  | v => v

def toInt64 (c : Column) : Column := ⟨c.name, .int64nullable, c.vals.map toIntVal⟩

def isComposite : Value → Bool
  | .vcomp _ => true
  | _ => false

/-- The composite branch's `lambda x: str(x) if x is not None else None`:
note only `None` itself is kept — `nan`/`NaT` are *not* `None` and are
stringified. -/
def strIfNotNone (v : Value) : Value :=
  match v with
  | .vnull .pynone => .vnull .pynone
  | v => .vstr (pyStr v)

/-- One cell under `pd.to_datetime(·, format="%Y-%m-%d %H:%M:%S",
errors='coerce')`: strings are parsed against the format; an actual datetime
value converts to itself (Python datetimes are always calendar-valid, which
the guard records); everything else coerces to `NaT`. -/
def normVal (v : Value) : Option DT :=
  match v with
  | .vstr s => parseDTs s
  | .vdt d => if d.valid then some d else none
  | _ => none

/-- `converted_col.dt.strftime(...)` applied to one `to_datetime` result cell:
a parsed timestamp renders canonically, `NaT` becomes `nan`. -/
def dtRender (o : Option DT) : Value :=
  match o with
  | some d => Value.vstr (formatDT d)
  | none => Value.vnull .nan

/-- The composite check of the object branch: when `sample_value` (the first
non-null cell) is a list/dict/set/tuple, stringify the column cell-wise. -/
def objectPre (c : Column) : List Value :=
  match (nonNulls c.vals).head? with
  | some v0 => if isComposite v0 then c.vals.map strIfNotNone else c.vals
  | none => c.vals

/-- The object-dtype branch (source lines 40-53 / 44-57): optionally stringify
composites, then try the whole column as fixed-format timestamps; if at least
one cell parses, reformat parseable cells canonically and null the rest
(`strftime` maps `NaT` to `nan`), otherwise `astype(str)` the column. -/
def objectStep (c : Column) : Column :=
  let parsed := (objectPre c).map normVal
  if 0 < parsed.countP (fun o => o.isSome) then
    ⟨c.name, .object, parsed.map dtRender⟩
  else astypeStr ⟨c.name, c.dtype, objectPre c⟩

/-- The datetime64 branch: `.dt.strftime('%Y-%m-%d %H:%M:%S')`; `NaT` maps to
`nan`.  (A datetime64 column holds only timestamps and `NaT`.) -/
def strftimeCol (c : Column) : Column :=
  ⟨c.name, .object, c.vals.map (fun v => match v with
    | .vdt d => Value.vstr (formatDT d)
    | _ => Value.vnull .nan)⟩

/-- The timedelta64 branch: `str(x.total_seconds())` for present values,
`None` for missing ones.  (A timedelta64 column holds only durations and
`NaT`.) -/
def timedeltaCol (c : Column) : Column :=
  ⟨c.name, .object, c.vals.map (fun v => match v with
    | .vtd q => Value.vstr (strOfFloat q)
    | _ => Value.vnull .pynone)⟩

/-- The per-column body shared by both coercers: the empty-sample check first,
then the dtype dispatch in source order. -/
def coerceColumn (b : Backend) (c : Column) : Column :=
  if (nonNulls c.vals).length = 0 then astypeStr c
  else match c.dtype with
    | .float =>
      if (nonNulls c.vals).all isIntegral then toInt64 c
      else match b with
        | .bq => astypeStr c   -- big_query: convert float to string
        | .mysql => c          -- mysql: keep as float for the DOUBLE type
    | .category => astypeStr c
    | .object => objectStep c
    | .datetime => strftimeCol c
    | .timedelta => timedeltaCol c
    | .boolp => c
    | .intp => c
    | .int64nullable => c
    | .other => astypeStr c

/-- The per-column body wrapped in the source's `try`: analysable failures are
surfaced as `Except`; the model's operations are total, so the body always
succeeds, mirroring that no branch of the source body raises for the values a
pandas column can hold. -/
def coerceColumnBody (b : Backend) (c : Column) : Except String Column :=
  Except.ok (coerceColumn b c)

/-- The `except` handler (source lines 70-72 / 75-77): on failure the column
is downgraded to `astype(str)` and processing continues. -/
def coerceColumnSafe (b : Backend) (c : Column) : Column :=
  match coerceColumnBody b c with
  | .ok c' => c'
  | .error _ => astypeStr c

structure DataFrame where
  cols : List Column
deriving DecidableEq, Repr

/-- `safe_convert_for_parquet` (big_query_insert.py lines 14-74). -/
def safe_convert_for_parquet (df : DataFrame) : DataFrame :=
  ⟨df.cols.map (coerceColumnSafe .bq)⟩

/-- `safe_convert_for_mysql` (mysql_insert.py lines 17-79). -/
def safe_convert_for_mysql (df : DataFrame) : DataFrame :=
  ⟨df.cols.map (coerceColumnSafe .mysql)⟩

def safeConvert (b : Backend) (df : DataFrame) : DataFrame :=
  ⟨df.cols.map (coerceColumnSafe b)⟩

theorem coerceColumnSafe_eq (b : Backend) (c : Column) :
    coerceColumnSafe b c = coerceColumn b c := rfl

/-! ### Stability of the coercion from the second pass on -/

def strOrNull : Value → Bool
  | .vstr _ => true
  | .vnull _ => true
  | _ => false

theorem pyStr_vstr (s : String) : pyStr (.vstr s) = s := rfl

theorem astypeStr_astypeStr (c : Column) : astypeStr (astypeStr c) = astypeStr c := by
  simp only [astypeStr, List.map_map, Column.mk.injEq, true_and]
  exact List.map_congr_left (fun v _ => rfl)

theorem isNull_vstr (s : String) : (Value.vstr s).isNull = false := rfl

theorem nonNulls_all_vstr (l : List Value) (h : ∀ v ∈ l, ∃ s, v = .vstr s) :
    nonNulls l = l := by
  rw [nonNulls, List.filter_eq_self]
  intro v hv
  obtain ⟨s, rfl⟩ := h v hv
  rfl

theorem parse_pyStr_null (k : NullKind) : parseDTs (pyStr (.vnull k)) = none := by
  cases k <;> rfl

theorem normVal_valid (v : Value) (d : DT) (h : normVal v = some d) : d.valid = true := by
  cases v with
  | vstr s => exact parseDTs_valid s d h
  | vdt d' =>
    simp only [normVal] at h
    split at h
    · cases h; assumption
    · cases h
  | vnull k => cases h
  | vint n => cases h
  | vfloat q => cases h
  | vbool bv => cases h
  | vtd q => cases h
  | vcomp s => cases h

theorem normVal_dtRender (o : Option DT) (h : ∀ d, o = some d → d.valid = true) :
    normVal (dtRender o) = o := by
  cases o with
  | none => rfl
  | some d =>
    show parseDTs (formatDT d) = some d
    exact parseDTs_formatDT d (h d rfl)

theorem objectPre_not_composite (c : Column) (v0 : Value)
    (hh : (nonNulls c.vals).head? = some v0) (hc : isComposite v0 = false) :
    objectPre c = c.vals := by
  simp [objectPre, hh, hc]

theorem objectPre_of_none (c : Column) (hh : (nonNulls c.vals).head? = none) :
    objectPre c = c.vals := by
  simp [objectPre, hh]

/-- When every cell of a column renders to a string the parser rejects, the
column's `astype(str)` image is a fixed point of the coercion. -/
theorem coerce_astypeStr_of_noparse (b : Backend) (c : Column)
    (h : ∀ v ∈ c.vals, parseDTs (pyStr v) = none) :
    coerceColumn b (astypeStr c) = astypeStr c := by
  have hall : ∀ v ∈ (astypeStr c).vals, ∃ s, v = Value.vstr s := by
    intro v hvm
    obtain ⟨u, _, rfl⟩ := List.mem_map.mp hvm
    exact ⟨pyStr u, rfl⟩
  have hnn : nonNulls (astypeStr c).vals = (astypeStr c).vals := nonNulls_all_vstr _ hall
  cases hv : c.vals with
  | nil =>
    have hXv : (astypeStr c).vals = [] := by simp [astypeStr, hv]
    have hlen0 : (nonNulls (astypeStr c).vals).length = 0 := by rw [hXv]; rfl
    rw [show coerceColumn b (astypeStr c) = astypeStr (astypeStr c) by
      simp [coerceColumn, hlen0]]
    exact astypeStr_astypeStr c
  | cons w ws =>
    have hXv : (astypeStr c).vals = Value.vstr (pyStr w) :: ws.map (fun v => .vstr (pyStr v)) := by
      simp [astypeStr, hv]
    have hlen : ¬ (nonNulls (astypeStr c).vals).length = 0 := by
      rw [hnn, hXv]; simp
    have hh : (nonNulls (astypeStr c).vals).head? = some (Value.vstr (pyStr w)) := by
      rw [hnn, hXv]; rfl
    have hpre : objectPre (astypeStr c) = (astypeStr c).vals :=
      objectPre_not_composite _ _ hh rfl
    have hcount : (((astypeStr c).vals).map normVal).countP (fun o => o.isSome) = 0 := by
      rw [List.countP_eq_zero]
      intro o ho
      obtain ⟨u, hu, rfl⟩ := List.mem_map.mp ho
      obtain ⟨u', hu', rfl⟩ := List.mem_map.mp hu
      have hnone : normVal (Value.vstr (pyStr u')) = none := h u' hu'
      simp [hnone]
    have hobj : objectStep (astypeStr c) = astypeStr (astypeStr c) := by
      simp only [objectStep, hpre, hcount, Nat.lt_irrefl, if_false]
    have hXd : (astypeStr c).dtype = DType.object := rfl
    rw [show coerceColumn b (astypeStr c) = objectStep (astypeStr c) by
      simp [coerceColumn, hlen, hXd]]
    rw [hobj]
    exact astypeStr_astypeStr c

/-- The reformat branch's output is a fixed point of the coercion: its
canonical strings reparse to the very timestamps they were printed from. -/
theorem coerce_dtRender_fixed (b : Backend) (name : String) (os : List (Option DT))
    (hvalid : ∀ d, (some d) ∈ os → d.valid = true)
    (hsome : 0 < os.countP (fun o => o.isSome)) :
    coerceColumn b ⟨name, .object, os.map dtRender⟩ = ⟨name, .object, os.map dtRender⟩ := by
  obtain ⟨o0, ho0, ho0s⟩ := List.countP_pos_iff.mp hsome
  obtain ⟨d0, rfl⟩ := Option.isSome_iff_exists.mp (by simpa using ho0s)
  have hmemW : Value.vstr (formatDT d0) ∈ os.map dtRender :=
    List.mem_map.mpr ⟨some d0, ho0, rfl⟩
  have hnormW : (os.map dtRender).map normVal = os := by
    rw [List.map_map]
    have hpt : ∀ o ∈ os, (normVal ∘ dtRender) o = id o := by
      intro o ho
      show normVal (dtRender o) = o
      exact normVal_dtRender o (fun d hd => hvalid d (hd ▸ ho))
    rw [List.map_congr_left hpt, List.map_id]
  have hlen : ¬ (nonNulls (os.map dtRender)).length = 0 := by
    intro hzero
    have hnil : nonNulls (os.map dtRender) = [] := List.length_eq_zero.mp hzero
    have hmf : Value.vstr (formatDT d0) ∈ nonNulls (os.map dtRender) :=
      List.mem_filter.mpr ⟨hmemW, rfl⟩
    rw [hnil] at hmf
    cases hmf
  set X : Column := ⟨name, .object, os.map dtRender⟩ with hXdef
  cases hnnl : nonNulls X.vals with
  | nil => exact absurd (by rw [show X.vals = os.map dtRender from rfl] at hnnl; rw [hnnl]; rfl) hlen
  | cons v0 t =>
    have hv0mem : v0 ∈ nonNulls X.vals := by rw [hnnl]; exact List.mem_cons_self _ _
    have hv0W : v0 ∈ os.map dtRender := (List.mem_filter.mp hv0mem).1
    obtain ⟨o1, ho1, rfl⟩ := List.mem_map.mp hv0W
    have hcompf : isComposite (dtRender o1) = false := by cases o1 <;> rfl
    have hh : (nonNulls X.vals).head? = some (dtRender o1) := by rw [hnnl]; rfl
    have hpre : objectPre X = os.map dtRender := objectPre_not_composite _ _ hh hcompf
    have hXd : X.dtype = DType.object := rfl
    rw [show coerceColumn b X = objectStep X by
      simp [coerceColumn, show ¬(nonNulls X.vals).length = 0 from hlen, hXd]]
    simp only [objectStep, hpre, hnormW]
    rw [if_pos hsome]

theorem astypeStr_strOrNull (c : Column) : ∀ v ∈ (astypeStr c).vals, strOrNull v = true := by
  intro v hv
  obtain ⟨u, _, rfl⟩ := List.mem_map.mp hv
  rfl

theorem strftimeCol_strOrNull (c : Column) : ∀ v ∈ (strftimeCol c).vals, strOrNull v = true := by
  intro v hv
  obtain ⟨u, _, rfl⟩ := List.mem_map.mp hv
  cases u <;> rfl

theorem timedeltaCol_strOrNull (c : Column) : ∀ v ∈ (timedeltaCol c).vals, strOrNull v = true := by
  intro v hv
  obtain ⟨u, _, rfl⟩ := List.mem_map.mp hv
  cases u <;> rfl

theorem objectStep_strOrNull (c : Column) : ∀ v ∈ (objectStep c).vals, strOrNull v = true := by
  intro v hv
  simp only [objectStep] at hv
  split at hv
  · obtain ⟨o, _, rfl⟩ := List.mem_map.mp hv
    cases o <;> rfl
  · obtain ⟨u, _, rfl⟩ := List.mem_map.mp hv
    rfl

theorem objectStep_dtype (c : Column) : (objectStep c).dtype = DType.object := by
  simp only [objectStep]
  split <;> rfl

/-- An object column of strings and nulls maps, under one coercion pass, to a
fixed point of the coercion. -/
theorem coerce_stable_object (b : Backend) (c : Column)
    (hdt : c.dtype = DType.object) (hv : ∀ v ∈ c.vals, strOrNull v = true) :
    coerceColumn b (coerceColumn b c) = coerceColumn b c := by
  by_cases h0 : (nonNulls c.vals).length = 0
  · rw [show coerceColumn b c = astypeStr c by simp [coerceColumn, h0]]
    apply coerce_astypeStr_of_noparse
    intro v hvm
    have hnil : nonNulls c.vals = [] := List.length_eq_zero.mp h0
    have hnull : v.isNull = true := by
      by_contra hne
      have hmem : v ∈ nonNulls c.vals := List.mem_filter.mpr ⟨hvm, by
        rw [Bool.not_eq_true] at hne
        simp [hne]⟩
      rw [hnil] at hmem
      cases hmem
    cases v with
    | vnull k => exact parse_pyStr_null k
    | vstr s => cases hnull
    | vint n => cases hnull
    | vfloat q => cases hnull
    | vbool bv => cases hnull
    | vdt d => cases hnull
    | vtd q => cases hnull
    | vcomp s => cases hnull
  · have hfc : coerceColumn b c = objectStep c := by simp [coerceColumn, h0, hdt]
    cases hnnl : nonNulls c.vals with
    | nil => exact absurd (by rw [hnnl]; rfl) h0
    | cons v0 t =>
      have hv0mem : v0 ∈ nonNulls c.vals := by rw [hnnl]; exact List.mem_cons_self _ _
      have hv0c : v0 ∈ c.vals := (List.mem_filter.mp hv0mem).1
      have hv0nn : (!v0.isNull) = true := (List.mem_filter.mp hv0mem).2
      have hsn : strOrNull v0 = true := hv v0 hv0c
      obtain ⟨s0, rfl⟩ : ∃ s, v0 = Value.vstr s := by
        cases v0 <;> simp_all [strOrNull, Value.isNull]
      have hh : (nonNulls c.vals).head? = some (Value.vstr s0) := by rw [hnnl]; rfl
      have hpre : objectPre c = c.vals := objectPre_not_composite _ _ hh rfl
      by_cases hs : 0 < (c.vals.map normVal).countP (fun o => o.isSome)
      · have hfc2 : objectStep c = ⟨c.name, .object, (c.vals.map normVal).map dtRender⟩ := by
          simp only [objectStep, hpre]
          rw [if_pos hs]
        rw [hfc, hfc2]
        apply coerce_dtRender_fixed
        · intro d hd
          obtain ⟨v, hvm, hnv⟩ := List.mem_map.mp hd
          exact normVal_valid v d hnv
        · exact hs
      · have hfc2 : objectStep c = astypeStr ⟨c.name, c.dtype, c.vals⟩ := by
          simp only [objectStep, hpre]
          rw [if_neg hs]
        rw [hfc, hfc2, show (⟨c.name, c.dtype, c.vals⟩ : Column) = c from rfl]
        apply coerce_astypeStr_of_noparse
        intro v hvm
        have hz := List.countP_eq_zero.mp (Nat.eq_zero_of_not_pos hs)
        have hsnv : strOrNull v = true := hv v hvm
        cases v with
        | vstr s =>
          have hmapm : normVal (Value.vstr s) ∈ c.vals.map normVal :=
            List.mem_map.mpr ⟨_, hvm, rfl⟩
          have hnone := hz _ hmapm
          simp only [Option.not_isSome_iff_eq_none] at hnone
          exact hnone
        | vnull k => exact parse_pyStr_null k
        | vint n => cases hsnv
        | vfloat q => cases hsnv
        | vbool bv => cases hsnv
        | vdt d => cases hsnv
        | vtd q => cases hsnv
        | vcomp s => cases hsnv

theorem length_filter_toIntVal (l : List Value) :
    ((l.map toIntVal).filter (fun v => !v.isNull)).length
      = (l.filter (fun v => !v.isNull)).length := by
  induction l with
  | nil => rfl
  | cons v t ih =>
    have hnv : (toIntVal v).isNull = v.isNull := by cases v <;> rfl
    simp only [List.map_cons, List.filter_cons, hnv]
    cases hb : v.isNull <;> simp [hb, ih]

/-- The second coercion pass produces a fixed point of the coercion: from the
second application on, the coercers are idempotent. -/
theorem coerceColumn_sq_stable (b : Backend) (c : Column) :
    coerceColumn b (coerceColumn b (coerceColumn b c)) = coerceColumn b (coerceColumn b c) := by
  by_cases h0 : (nonNulls c.vals).length = 0
  · rw [show coerceColumn b c = astypeStr c by simp [coerceColumn, h0]]
    exact coerce_stable_object b (astypeStr c) rfl (astypeStr_strOrNull c)
  · cases hdt : c.dtype with
    | float =>
      by_cases hint : (nonNulls c.vals).all isIntegral = true
      · have hfc : coerceColumn b c = toInt64 c := by simp [coerceColumn, h0, hdt, hint]
        have hlen : ¬ (nonNulls (toInt64 c).vals).length = 0 := by
          show ¬ (((c.vals.map toIntVal).filter (fun v => !v.isNull)).length = 0)
          rw [length_filter_toIntVal]
          exact h0
        have hlen' : ¬ nonNulls (c.vals.map toIntVal) = [] := fun hnil =>
          hlen (by show (nonNulls (c.vals.map toIntVal)).length = 0; rw [hnil]; rfl)
        have hstable : coerceColumn b (toInt64 c) = toInt64 c := by
          simp [coerceColumn, hlen, hlen', toInt64]
        rw [hfc, hstable, hstable]
      · cases b with
        | bq =>
          rw [show coerceColumn .bq c = astypeStr c by simp [coerceColumn, h0, hdt, hint]]
          exact coerce_stable_object _ _ rfl (astypeStr_strOrNull c)
        | mysql =>
          have hfc : coerceColumn .mysql c = c := by simp [coerceColumn, h0, hdt, hint]
          simp [hfc]
    | category =>
      rw [show coerceColumn b c = astypeStr c by simp [coerceColumn, h0, hdt]]
      exact coerce_stable_object _ _ rfl (astypeStr_strOrNull c)
    | object =>
      rw [show coerceColumn b c = objectStep c by simp [coerceColumn, h0, hdt]]
      exact coerce_stable_object _ _ (objectStep_dtype c) (objectStep_strOrNull c)
    | datetime =>
      rw [show coerceColumn b c = strftimeCol c by simp [coerceColumn, h0, hdt]]
      exact coerce_stable_object _ _ rfl (strftimeCol_strOrNull c)
    | timedelta =>
      rw [show coerceColumn b c = timedeltaCol c by simp [coerceColumn, h0, hdt]]
      exact coerce_stable_object _ _ rfl (timedeltaCol_strOrNull c)
    | boolp =>
      have hfc : coerceColumn b c = c := by simp [coerceColumn, h0, hdt]
      simp [hfc]
    | intp =>
      have hfc : coerceColumn b c = c := by simp [coerceColumn, h0, hdt]
      simp [hfc]
    | int64nullable =>
      have hfc : coerceColumn b c = c := by simp [coerceColumn, h0, hdt]
      simp [hfc]
    | other =>
      rw [show coerceColumn b c = astypeStr c by simp [coerceColumn, h0, hdt]]
      exact coerce_stable_object _ _ rfl (astypeStr_strOrNull c)

/-! ### Destination type derivation -/

/-- `get_bigquery_type` (big_query_insert.py lines 77-90): the dtype checks in
source order; both integer dtypes satisfy `is_integer_dtype`. -/
def get_bigquery_type (d : DType) : String :=
  match d with
  | .datetime => "TIMESTAMP"
  | .boolp => "BOOLEAN"
  | .intp => "INTEGER"
  | .int64nullable => "INTEGER"
  | .float => "FLOAT"
  | _ => "STRING"

/-- The integer cells of a column (`.max()` skips missing values). -/
def intVals (vs : List Value) : List Int :=
  vs.filterMap (fun v => match v with
    | .vint n => some n
    | _ => none)

/-- `column_values.max() if not column_values.empty else 0` for an integer
column: the signed maximum of the present values.  (On a non-empty but
all-null `Int64` column the source's comparison with `pd.NA` would raise; no
pipeline column is in that state, and the model returns the `empty` default.) -/
def maxIntVal (vs : List Value) : Int :=
  if vs.length = 0 then 0
  else match intVals vs with
    | [] => 0
    | x :: xs => xs.foldl max x

/-- Maximum rendered string length of the non-null cells
(`non_null_values.astype(str).str.len().max()`). -/
def maxStrLen (vs : List Value) : Nat :=
  ((nonNulls vs).map (fun v => (pyStr v).length)).foldl max 0

/-- `get_mysql_type` (mysql_insert.py lines 82-116): dtype checks in source
order; the integer ladder compares the signed maximum against the positive
bounds 127 / 32767 / 8388607 / 2147483647; text columns are sized by their
longest rendered value. -/
def get_mysql_type (d : DType) (vs : List Value) : String :=
  match d with
  | .datetime => "DATETIME"
  | .boolp => "TINYINT(1)"
  | .intp | .int64nullable =>
    let mx := maxIntVal vs
    if mx ≤ 127 then "TINYINT"
    else if mx ≤ 32767 then "SMALLINT"
    else if mx ≤ 8388607 then "MEDIUMINT"
    else if mx ≤ 2147483647 then "INT"
    else "BIGINT"
  | .float => "DOUBLE"
  | _ =>
    if 0 < (nonNulls vs).length then
      let mx := maxStrLen vs
      if mx ≤ 65535 then "TEXT"
      else if mx ≤ 16777215 then "MEDIUMTEXT"
      else "LONGTEXT"
    else "VARCHAR(255)"

/-! ### DataFrame-level operations of `insert_database` -/

/-- Case-insensitive substring check, as
`df.columns.str.contains('unnamed', case=False)` performs for the literal
pattern `unnamed`. -/
def containsSub (needle hay : List Char) : Bool :=
  match hay with
  | [] => needle.isEmpty
  | _ :: t => needle.isPrefixOf hay || containsSub needle t

def containsUnnamed (name : String) : Bool :=
  containsSub "unnamed".toList (name.toList.map Char.toLower)

/-- `df.drop(df.columns[df.columns.str.contains('unnamed', case=False)], axis=1)`
(big_query_insert.py lines 99-102, mysql_insert.py lines 141-144). -/
def dropUnnamed (df : DataFrame) : DataFrame :=
  ⟨df.cols.filter (fun c => !containsUnnamed c.name)⟩

/-- `col.replace(' ', '_').replace('-', '_').replace('.', '_')`. -/
def sanitize (s : String) : String :=
  (s.toList.map (fun ch => if ch = ' ' || ch = '-' || ch = '.' then '_' else ch)).asString

/-- `len(df)`: the row count, read off the first column.  (The model ties the
row count to the columns; a frame whose columns were all dropped counts as
empty.) -/
def nrows (df : DataFrame) : Nat :=
  match df.cols with
  | [] => 0
  | c :: _ => c.vals.length

/-- Row `i` of the frame, positionally across the columns. -/
def dfRow (df : DataFrame) (i : Nat) : List Value :=
  df.cols.map (fun c => c.vals.getD i (.vnull .nan))

/-- `df.insert(0, "id", range(max_id + 1, max_id + 1 + len(df)))`
(big_query_insert.py line 140): a fresh int64 column in front. -/
def insertIdCol (df : DataFrame) (maxId : Int) : DataFrame :=
  ⟨⟨"id", .intp, (List.range (nrows df)).map (fun (i : Nat) => .vint (maxId + 1 + (i : Int)))⟩ :: df.cols⟩

/-- Comparison `sort_values(by="id")` uses on the id cells (always integers
here). -/
def valueLe (v w : Value) : Bool :=
  match v, w with
  | .vint a, .vint b => a ≤ b
  | _, _ => true

/-- Stable insertion into a sorted index list (helper for the row sort). -/
def insertIdx (le : Nat → Nat → Bool) (i : Nat) : List Nat → List Nat
  | [] => [i]
  | j :: t => if le i j then i :: j :: t else j :: insertIdx le i t

/-- Insertion sort on row indices (the model of the row reordering
`sort_values` performs; on the strictly increasing ids produced here any
sorting algorithm yields the same permutation). -/
def isort (le : Nat → Nat → Bool) : List Nat → List Nat
  | [] => []
  | i :: t => insertIdx le i (isort le t)

/-- `df.sort_values(by="id").reset_index(drop=True)` (big_query_insert.py
line 143): reorder the rows of every column by the sort permutation of the
`id` column. -/
def sortById (df : DataFrame) : DataFrame :=
  match df.cols.find? (fun c => c.name = "id") with
  | none => df
  | some idc =>
    let n := idc.vals.length
    let perm := isort (fun i j => valueLe (idc.vals.getD i (.vnull .nan)) (idc.vals.getD j (.vnull .nan))) (List.range n)
    ⟨df.cols.map (fun c => ⟨c.name, c.dtype, perm.map (fun i => c.vals.getD i (.vnull .nan))⟩)⟩

/-! ### The BigQuery `insert_database` (big_query_insert.py lines 93-158)

The destination client is an external collaborator; the model records the
calls `insert_database` issues against it as a list of effects, and the
destination's observable answers (the outcome of the `get_table` probe and
the `IFNULL(MAX(id), 0)` scalar) as an environment record. -/

/-- An exception raised by the `get_table` existence probe — the source's
`except Exception` catches every one of these alike. -/
inductive BQErr
  | notFound
  | permissionDenied
  | networkError
  | internalError
deriving DecidableEq, Repr

structure BQDest where
  /-- `none`: `get_table` succeeds (the table exists); `some e`: it raises `e`. -/
  probe : Option BQErr
  /-- The destination's answer to `SELECT IFNULL(MAX(id), 0)`. -/
  maxId : Int
deriving DecidableEq, Repr

inductive BQEffect
  | createTable (schema : List (String × String))
  | load (df : DataFrame)
deriving DecidableEq, Repr

/-- The schema built on the create path (lines 118-130): one field per coerced
column, the `id INTEGER` field inserted first and `created_at TIMESTAMP`
appended last.  Column names are used verbatim (BigQuery path performs no
sanitization). -/
def bqSchema (df : DataFrame) : List (String × String) :=
  ("id", "INTEGER") :: df.cols.map (fun c => (c.name, get_bigquery_type c.dtype)) ++
    [("created_at", "TIMESTAMP")]

def hasCol (df : DataFrame) (name : String) : Bool :=
  df.cols.any (fun c => c.name = name)

/-- `insert_database` for BigQuery: copy, drop unnamed columns, coerce, probe
the table (any exception at all takes the create path), create if the probe
raised, fetch the max id, insert the id column, sort by it, and load.  Returns
the effects issued and the frame that was loaded (`none` when the coerced
frame already has an `id` column, in which case `df.insert` raises, the outer
handler returns the error, and no load happens). -/
def bq_insert_database (dest : BQDest) (df0 : DataFrame) : List BQEffect × Option DataFrame :=
  let df := safe_convert_for_parquet (dropUnnamed df0)
  let ddl : List BQEffect :=
    match dest.probe with
    | none => []
    | some _ => [.createTable (bqSchema df)]
  if hasCol df "id" then (ddl, none)
  else
    let df2 := sortById (insertIdCol df dest.maxId)
    (ddl ++ [.load df2], some df2)

/-! ### The MySQL `insert_database` (mysql_insert.py lines 132-226) -/

structure MyDest where
  /-- Whether `SHOW TABLES LIKE` finds the table. -/
  tableExists : Bool
  /-- The first field of each `DESCRIBE` row: the existing column names. -/
  existingCols : List String
  /-- The destination's answer to `SELECT IFNULL(MAX(id), 0)`. -/
  maxId : Int
deriving DecidableEq, Repr

inductive MyEffect
  | createTable (defs : List (String × String))
  | addColumn (name : String) (typeTag : String)
  | insertRows (cols : List String) (rows : List (List Value))
deriving DecidableEq, Repr

/-- The column definitions of the `CREATE TABLE` statement (lines 162-176):
`id INT AUTO_INCREMENT PRIMARY KEY` first, one sanitized data column per
coerced column, `created_at TIMESTAMP DEFAULT CURRENT_TIMESTAMP` last. -/
def mysqlCreateDefs (df : DataFrame) : List (String × String) :=
  ("id", "INT AUTO_INCREMENT PRIMARY KEY") ::
    df.cols.map (fun c => (sanitize c.name, get_mysql_type c.dtype c.vals)) ++
    [("created_at", "TIMESTAMP DEFAULT CURRENT_TIMESTAMP")]

/-- The predicate of the add-column loop (line 187): the sanitized name is
new and is neither `id` nor `created_at`. -/
def needsAdd (dest : MyDest) (c : Column) : Bool :=
  !dest.existingCols.contains (sanitize c.name) &&
    sanitize c.name ≠ "id" && sanitize c.name ≠ "created_at"

/-- `range(0, len(df), batch_size)`: the start index of every insert batch. -/
def batchStarts (n bs : Nat) : List Nat :=
  (List.range ((n + bs - 1) / bs)).map (fun k => k * bs)

/-- `insert_database` for MySQL: copy, drop unnamed columns, coerce, then
either create the table or add the missing columns, fetch the max id (the
source reads it into `max_id` and never uses it — the `id` column is
populated by the destination's AUTO_INCREMENT), and insert the rows in
batches of 1000 under the sanitized column names, without any `id` value. -/
def mysql_insert_database (dest : MyDest) (df0 : DataFrame) : List MyEffect :=
  let df := safe_convert_for_mysql (dropUnnamed df0)
  let ddl : List MyEffect :=
    if dest.tableExists then
      (df.cols.filter (needsAdd dest)).map
        (fun c => .addColumn (sanitize c.name) (get_mysql_type c.dtype c.vals))
    else [.createTable (mysqlCreateDefs df)]
  let inserts : List MyEffect :=
    (batchStarts (nrows df) 1000).map (fun s =>
      .insertRows (df.cols.map (fun c => sanitize c.name))
        ((List.range (min 1000 (nrows df - s))).map (fun k => dfRow df (s + k))))
  ddl ++ inserts

/-! ### Heap model of the entry-point mutation discipline

`insert_database` receives the caller's frame by reference, copies it first
(`df = data_frame.copy()`), and applies every mutating operation (the
in-place column drop, the in-place column coercion, the id-column insert) to
the copy.  A tiny reference heap makes that discipline provable. -/

structure Heap where
  cells : List DataFrame
deriving Repr

def Heap.read (h : Heap) (r : Nat) : DataFrame := h.cells.getD r ⟨[]⟩

def Heap.write (h : Heap) (r : Nat) (df : DataFrame) : Heap := ⟨h.cells.set r df⟩

def Heap.alloc (h : Heap) (df : DataFrame) : Heap × Nat :=
  (⟨h.cells ++ [df]⟩, h.cells.length)

/-- The mutation sequence of the BigQuery `insert_database` body on the heap:
copy the argument, then drop / coerce / insert-id / sort on the copy only. -/
def bq_insert_heap (dest : BQDest) (h : Heap) (r : Nat) : Heap × Nat :=
  let p := h.alloc (h.read r)
  let h1 := p.1
  let rdf := p.2
  let h2 := h1.write rdf (dropUnnamed (h1.read rdf))
  let h3 := h2.write rdf (safe_convert_for_parquet (h2.read rdf))
  let h4 := h3.write rdf (insertIdCol (h3.read rdf) dest.maxId)
  let h5 := h4.write rdf (sortById (h4.read rdf))
  (h5, rdf)

/-- The mutation sequence of the MySQL `insert_database` body on the heap:
copy the argument, then drop / coerce on the copy only (no id column is ever
inserted on this path). -/
def mysql_insert_heap (h : Heap) (r : Nat) : Heap × Nat :=
  let p := h.alloc (h.read r)
  let h1 := p.1
  let rdf := p.2
  let h2 := h1.write rdf (dropUnnamed (h1.read rdf))
  let h3 := h2.write rdf (safe_convert_for_mysql (h2.read rdf))
  (h3, rdf)

/-! ### Spec-side definition for the integer-width claim

Modelled from the spec's words for comparison with `get_mysql_type`: "smallest
integer width that holds the column's observed maximum magnitude (the largest
absolute value among the column's entries)". -/

/-- The column's observed maximum magnitude. -/
def maxAbsVal (vs : List Value) : Nat :=
  ((intVals vs).map Int.natAbs).foldl max 0

/-- The spec's width ladder keyed on the maximum magnitude. -/
def specMySQLIntTag (magnitude : Nat) : String :=
  if magnitude ≤ 127 then "TINYINT"
  else if magnitude ≤ 32767 then "SMALLINT"
  else if magnitude ≤ 8388607 then "MEDIUMINT"
  else if magnitude ≤ 2147483647 then "INT"
  else "BIGINT"

/-! ### Supporting lemmas for the loader and the pipelines -/

/-- All columns share the frame's row count (every frame pandas builds
satisfies this). -/
def WF (df : DataFrame) : Prop := ∀ c ∈ df.cols, c.vals.length = nrows df

theorem map_getD_range {α : Type} (l : List α) (d : α) :
    (List.range l.length).map (fun i => l.getD i d) = l := by
  apply List.ext_getElem
  · simp
  · intro i h1 h2
    simp [List.getD_eq_getElem?_getD, List.getElem?_eq_getElem h2]

theorem isort_of_pairwise (le : Nat → Nat → Bool) (l : List Nat)
    (h : l.Pairwise (fun a b => le a b = true)) : isort le l = l := by
  induction l with
  | nil => rfl
  | cons i t ih =>
    obtain ⟨hi, ht⟩ := List.pairwise_cons.mp h
    rw [isort, ih ht]
    cases t with
    | nil => rfl
    | cons j t' => simp [insertIdx, hi j (List.mem_cons_self _ _)]

/-- On the strictly increasing id column `insert_database` just built, the
row sort of `sort_values(by="id")` is the identity permutation. -/
theorem sortById_insertIdCol (df : DataFrame) (m : Int) (hwf : WF df) :
    sortById (insertIdCol df m) = insertIdCol df m := by
  set n := nrows df with hn
  set ids : List Value := (List.range n).map (fun (i : Nat) => Value.vint (m + 1 + (i : Int))) with hids
  have hfind : (insertIdCol df m).cols.find? (fun c => c.name = "id")
      = some ⟨"id", .intp, ids⟩ := by
    simp [insertIdCol, List.find?]
  have hlen_ids : ids.length = n := by simp [hids]
  have hgetD : ∀ i, i < n → ids.getD i (Value.vnull .nan) = Value.vint (m + 1 + i) := by
    intro i hi
    have hi' : i < ids.length := by rw [hlen_ids]; exact hi
    rw [List.getD_eq_getElem ids _ hi']
    simp [hids]
  have hpair : (List.range ids.length).Pairwise (fun a b =>
      valueLe (ids.getD a (Value.vnull .nan)) (ids.getD b (Value.vnull .nan)) = true) := by
    rw [List.pairwise_iff_getElem]
    intro i j h1 h2 hij
    simp only [List.getElem_range]
    rw [hgetD i (by simpa [hlen_ids] using h1), hgetD j (by simpa [hlen_ids] using h2)]
    simp only [valueLe, decide_eq_true_eq]
    omega
  have hperm : isort (fun i j =>
      valueLe (ids.getD i (Value.vnull .nan)) (ids.getD j (Value.vnull .nan)))
      (List.range ids.length) = List.range ids.length :=
    isort_of_pairwise _ _ hpair
  have hcolfix : ∀ c ∈ (insertIdCol df m).cols,
      (⟨c.name, c.dtype, (List.range ids.length).map (fun i => c.vals.getD i (.vnull .nan))⟩ : Column) = c := by
    intro c hc
    have hclen : c.vals.length = ids.length := by
      simp only [insertIdCol, List.mem_cons] at hc
      rcases hc with rfl | hc
      · rfl
      · rw [hlen_ids]
        exact hwf c hc
    rw [show (List.range ids.length) = List.range c.vals.length by rw [hclen],
      map_getD_range]
  have hmap : (insertIdCol df m).cols.map (fun c =>
      (⟨c.name, c.dtype, (List.range ids.length).map (fun i => c.vals.getD i (.vnull .nan))⟩ : Column))
      = (insertIdCol df m).cols := by
    rw [List.map_congr_left hcolfix]
    exact List.map_id _
  simp only [sortById, hfind, hperm]
  rw [hmap]

theorem objectStep_name (c : Column) : (objectStep c).name = c.name := by
  simp only [objectStep]
  split <;> rfl

theorem coerceColumn_name (b : Backend) (c : Column) :
    (coerceColumn b c).name = c.name := by
  unfold coerceColumn
  repeat' split <;> try rfl
  all_goals exact objectStep_name c

theorem coerceColumnSafe_name (b : Backend) (c : Column) :
    (coerceColumnSafe b c).name = c.name := coerceColumn_name b c

theorem safeConvert_names (b : Backend) (df : DataFrame) :
    (safeConvert b df).cols.map (fun c => c.name) = df.cols.map (fun c => c.name) := by
  show (df.cols.map (coerceColumnSafe b)).map (fun c => c.name) = df.cols.map (fun c => c.name)
  rw [List.map_map]
  exact List.map_congr_left (fun c _ => coerceColumnSafe_name b c)

theorem sortById_names (df : DataFrame) :
    (sortById df).cols.map (fun c => c.name) = df.cols.map (fun c => c.name) := by
  simp only [sortById]
  split
  · rfl
  · rw [List.map_map]
    exact List.map_congr_left (fun c _ => rfl)

theorem foldl_max_natAbs (L : List Int) : ∀ (x : Int), 0 ≤ x → (∀ n ∈ L, 0 ≤ n) →
    L.foldl max x = (((L.map Int.natAbs).foldl max x.natAbs : Nat) : Int) := by
  induction L with
  | nil =>
    intro x hx _
    simp [Int.natAbs_of_nonneg hx]
  | cons y t ih =>
    intro x hx hall
    have hy : 0 ≤ y := hall y (List.mem_cons_self _ _)
    have ht : ∀ n ∈ t, 0 ≤ n := fun n hn => hall n (List.mem_cons_of_mem _ hn)
    simp only [List.foldl_cons, List.map_cons]
    rw [show max x.natAbs y.natAbs = (max x y).natAbs by omega]
    exact ih (max x y) (le_trans hx (le_max_left x y)) ht

/-- The signed column maximum the source compares against the ladder equals
the spec's maximum magnitude whenever no value is negative. -/
theorem maxIntVal_eq_maxAbs (vs : List Value) (hpos : ∀ n ∈ intVals vs, 0 ≤ n) :
    maxIntVal vs = ((maxAbsVal vs : Nat) : Int) := by
  unfold maxIntVal maxAbsVal
  by_cases hl : vs.length = 0
  · have : vs = [] := List.length_eq_zero.mp hl
    subst this
    simp [intVals]
  · simp only [hl, if_false]
    cases hiv : intVals vs with
    | nil => simp [hiv]
    | cons x xs =>
      have hx : 0 ≤ x := hpos x (hiv ▸ List.mem_cons_self _ _)
      have hxs : ∀ n ∈ xs, 0 ≤ n := fun n hn => hpos n (hiv ▸ List.mem_cons_of_mem _ hn)
      simp only [List.map_cons, List.foldl_cons]
      rw [show max 0 x.natAbs = x.natAbs from Nat.zero_max _]
      exact foldl_max_natAbs xs x hx hxs

theorem get_mysql_type_int_eq (vs : List Value) :
    get_mysql_type .intp vs = get_mysql_type .int64nullable vs := rfl

theorem get_mysql_type_int_spec (vs : List Value) (hpos : ∀ n ∈ intVals vs, 0 ≤ n) :
    get_mysql_type .intp vs = specMySQLIntTag (maxAbsVal vs) := by
  have hM := maxIntVal_eq_maxAbs vs hpos
  show (if maxIntVal vs ≤ 127 then "TINYINT"
    else if maxIntVal vs ≤ 32767 then "SMALLINT"
    else if maxIntVal vs ≤ 8388607 then "MEDIUMINT"
    else if maxIntVal vs ≤ 2147483647 then "INT"
    else "BIGINT") = _
  rw [hM]
  unfold specMySQLIntTag
  by_cases a1 : maxAbsVal vs ≤ 127
  · rw [if_pos (by exact_mod_cast a1), if_pos a1]
  · rw [if_neg (by exact_mod_cast a1), if_neg a1]
    by_cases a2 : maxAbsVal vs ≤ 32767
    · rw [if_pos (by exact_mod_cast a2), if_pos a2]
    · rw [if_neg (by exact_mod_cast a2), if_neg a2]
      by_cases a3 : maxAbsVal vs ≤ 8388607
      · rw [if_pos (by exact_mod_cast a3), if_pos a3]
      · rw [if_neg (by exact_mod_cast a3), if_neg a3]
        by_cases a4 : maxAbsVal vs ≤ 2147483647
        · rw [if_pos (by exact_mod_cast a4), if_pos a4]
        · rw [if_neg (by exact_mod_cast a4), if_neg a4]

theorem safeConvert_sq_stable (b : Backend) (df : DataFrame) :
    safeConvert b (safeConvert b (safeConvert b df)) = safeConvert b (safeConvert b df) := by
  show (⟨((df.cols.map (coerceColumnSafe b)).map (coerceColumnSafe b)).map (coerceColumnSafe b)⟩ : DataFrame)
    = ⟨(df.cols.map (coerceColumnSafe b)).map (coerceColumnSafe b)⟩
  rw [List.map_map, List.map_map, List.map_map]
  refine congrArg DataFrame.mk (List.map_congr_left ?_)
  intro c _
  exact coerceColumn_sq_stable b c

/-! ### Claim theorems -/

/-- C1 counterexample: coercing twice does not always equal coercing once.
A timedelta column with one present duration and one missing value coerces to
`["3600.0", None]`; the second pass finds an object column, fails the
timestamp parse, and runs `astype(str)`, which turns `None` into the string
`"None"`.  Both backend coercers change the table on the second pass. -/
theorem c1_counterexample :
    (safe_convert_for_parquet (safe_convert_for_parquet
        ⟨[⟨"elapsed", .timedelta, [.vtd 3600, .vnull .nat_kind]⟩]⟩)
      ≠ safe_convert_for_parquet ⟨[⟨"elapsed", .timedelta, [.vtd 3600, .vnull .nat_kind]⟩]⟩)
    ∧ (safe_convert_for_mysql (safe_convert_for_mysql
        ⟨[⟨"elapsed", .timedelta, [.vtd 3600, .vnull .nat_kind]⟩]⟩)
      ≠ safe_convert_for_mysql ⟨[⟨"elapsed", .timedelta, [.vtd 3600, .vnull .nat_kind]⟩]⟩) := by
  constructor <;> decide

/-- C1 (amended): one coercion pass need not be idempotent, but the output of
two passes is a fixed point — applying either backend's coercer three times
yields the same table as applying it twice, for every table. -/
theorem c1_coercion_idempotent_from_second_pass (df : DataFrame) :
    safe_convert_for_parquet (safe_convert_for_parquet (safe_convert_for_parquet df))
      = safe_convert_for_parquet (safe_convert_for_parquet df)
    ∧ safe_convert_for_mysql (safe_convert_for_mysql (safe_convert_for_mysql df))
      = safe_convert_for_mysql (safe_convert_for_mysql df) :=
  ⟨safeConvert_sq_stable .bq df, safeConvert_sq_stable .mysql df⟩

/-- Every append effect the MySQL `insert_database` issues carries exactly the
sanitized names of the coerced data columns — in particular never an `id`
column added by the loader. -/
theorem mysql_insertRows_cols (dest : MyDest) (df0 : DataFrame)
    (cols : List String) (rows : List (List Value))
    (he : MyEffect.insertRows cols rows ∈ mysql_insert_database dest df0) :
    cols = (safe_convert_for_mysql (dropUnnamed df0)).cols.map (fun c => sanitize c.name) := by
  simp only [mysql_insert_database, List.mem_append] at he
  rcases he with he | he
  · by_cases ht : dest.tableExists
    · simp only [ht, if_true] at he
      obtain ⟨c, _, hc⟩ := List.mem_map.mp he
      cases hc
    · simp only [ht, if_false] at he
      rcases List.mem_singleton.mp he with h
      cases h
  · obtain ⟨s, _, hs⟩ := List.mem_map.mp he
    cases hs
    rfl

/-- The only create-table effect the MySQL `insert_database` can issue is the
one for a missing table, with the full derived definition list. -/
theorem mysql_createTable_defs (dest : MyDest) (df0 : DataFrame)
    (defs : List (String × String))
    (he : MyEffect.createTable defs ∈ mysql_insert_database dest df0) :
    defs = mysqlCreateDefs (safe_convert_for_mysql (dropUnnamed df0))
      ∧ dest.tableExists = false := by
  simp only [mysql_insert_database, List.mem_append] at he
  rcases he with he | he
  · by_cases ht : dest.tableExists
    · simp only [ht, if_true] at he
      obtain ⟨c, _, hc⟩ := List.mem_map.mp he
      cases hc
    · simp only [ht, if_false] at he
      rcases List.mem_singleton.mp he with h
      cases h
      exact ⟨rfl, by simpa using ht⟩
  · obtain ⟨s, _, hs⟩ := List.mem_map.mp he
    cases hs

/-- The only load effect the BigQuery `insert_database` can issue is the
sorted id-extended coerced frame, and it is only issued when the coerced
frame had no `id` column of its own. -/
theorem bq_load_shape (dest : BQDest) (df0 : DataFrame) (df2 : DataFrame)
    (he : BQEffect.load df2 ∈ (bq_insert_database dest df0).1) :
    df2 = sortById (insertIdCol (safe_convert_for_parquet (dropUnnamed df0)) dest.maxId)
      ∧ hasCol (safe_convert_for_parquet (dropUnnamed df0)) "id" = false := by
  by_cases hid : hasCol (safe_convert_for_parquet (dropUnnamed df0)) "id"
  · cases hp : dest.probe <;> simp [bq_insert_database, hp, hid] at he
  · cases hp : dest.probe <;> simp [bq_insert_database, hp, hid] at he <;>
      exact ⟨he, by simpa using hid⟩

/-- The only create-table effect the BigQuery `insert_database` can issue is
the derived schema, and only after a failed existence probe. -/
theorem bq_createTable_shape (dest : BQDest) (df0 : DataFrame)
    (schema : List (String × String))
    (he : BQEffect.createTable schema ∈ (bq_insert_database dest df0).1) :
    schema = bqSchema (safe_convert_for_parquet (dropUnnamed df0))
      ∧ ∃ e, dest.probe = some e := by
  cases hp : dest.probe with
  | none =>
    by_cases hid : hasCol (safe_convert_for_parquet (dropUnnamed df0)) "id" <;>
      simp [bq_insert_database, hp, hid] at he
  | some e =>
    by_cases hid : hasCol (safe_convert_for_parquet (dropUnnamed df0)) "id" <;>
      simp [bq_insert_database, hp, hid] at he <;>
      exact ⟨he, e, rfl⟩

/-- C2 counterexample: the MySQL `insert_database` does not assign identifiers
`max+1 .. max+N` to the rows before the append.  On a 2-row input against an
existing table, the only append it issues carries just the data column `a` —
no `id` column and no identifier values (the source fetches `MAX(id)` into
`max_id` and never uses it; the destination's AUTO_INCREMENT fills `id`). -/
theorem c2_counterexample :
    mysql_insert_database ⟨true, ["id", "created_at", "a"], 0⟩
        ⟨[⟨"a", .intp, [.vint 1, .vint 2]⟩]⟩
      = [MyEffect.insertRows ["a"] [[.vint 1], [.vint 2]]]
    ∧ ("id" ∈ ["a"]) = False := by
  constructor
  · decide
  · simp

/-- C2 (amended): the BigQuery `insert_database` queries the current maximum
identifier (0 for an empty table) and assigns `max+1 .. max+N` to the N rows
client-side, in source row order, before the load — the frame it loads is the
coerced frame with exactly that id column prepended.  The MySQL
`insert_database` performs the max-id query but never uses the result: every
append it issues carries exactly the sanitized data columns and no `id`
values, leaving identifier assignment to the destination's AUTO_INCREMENT
column. -/
theorem c2_sequential_ids :
    (∀ (dest : BQDest) (df0 : DataFrame),
      WF (safe_convert_for_parquet (dropUnnamed df0)) →
      hasCol (safe_convert_for_parquet (dropUnnamed df0)) "id" = false →
      (bq_insert_database dest df0).2
        = some (insertIdCol (safe_convert_for_parquet (dropUnnamed df0)) dest.maxId)
      ∧ BQEffect.load (insertIdCol (safe_convert_for_parquet (dropUnnamed df0)) dest.maxId)
          ∈ (bq_insert_database dest df0).1
      ∧ (insertIdCol (safe_convert_for_parquet (dropUnnamed df0)) dest.maxId).cols.head?
          = some ⟨"id", .intp,
              (List.range (nrows (safe_convert_for_parquet (dropUnnamed df0)))).map
                (fun (i : Nat) => .vint (dest.maxId + 1 + (i : Int)))⟩)
    ∧ (∀ (dest : MyDest) (df0 : DataFrame) (cols : List String) (rows : List (List Value)),
        MyEffect.insertRows cols rows ∈ mysql_insert_database dest df0 →
        cols = (safe_convert_for_mysql (dropUnnamed df0)).cols.map (fun c => sanitize c.name)) := by
  constructor
  · intro dest df0 hwf hid
    have hsort := sortById_insertIdCol (safe_convert_for_parquet (dropUnnamed df0)) dest.maxId hwf
    refine ⟨?_, ?_, rfl⟩
    · simp only [bq_insert_database, hid, Bool.false_eq_true, if_false, hsort]
    · simp only [bq_insert_database, hid, Bool.false_eq_true, if_false, hsort]
      exact List.mem_append_right _ (List.mem_singleton.mpr rfl)
  · exact mysql_insertRows_cols

/-- C2 witness: with an empty destination table and a 5-row input, the
BigQuery loader assigns exactly the identifiers 1,2,3,4,5 in input row
order, and a MySQL append for the same input carries no identifier column. -/
theorem c2_sequential_ids_witness :
    (bq_insert_database ⟨none, 0⟩ ⟨[⟨"a", .intp, [.vint 7, .vint 7, .vint 7, .vint 7, .vint 7]⟩]⟩).2
      = some ⟨[⟨"id", .intp, [.vint 1, .vint 2, .vint 3, .vint 4, .vint 5]⟩,
               ⟨"a", .intp, [.vint 7, .vint 7, .vint 7, .vint 7, .vint 7]⟩]⟩
    ∧ ∀ cols rows, MyEffect.insertRows cols rows
        ∈ mysql_insert_database ⟨false, [], 0⟩ ⟨[⟨"a", .intp, [.vint 7, .vint 7, .vint 7, .vint 7, .vint 7]⟩]⟩ →
        cols = ["a"] := by
  constructor
  · have h := (c2_sequential_ids.1 ⟨none, 0⟩
      ⟨[⟨"a", .intp, [.vint 7, .vint 7, .vint 7, .vint 7, .vint 7]⟩]⟩
      (by unfold WF; decide) (by decide)).1
    rw [h]
    decide
  · intro cols rows hmem
    have h := c2_sequential_ids.2 ⟨false, [], 0⟩
      ⟨[⟨"a", .intp, [.vint 7, .vint 7, .vint 7, .vint 7, .vint 7]⟩]⟩ cols rows hmem
    rw [h]
    decide

theorem needsAdd_iff (dest : MyDest) (c : Column) :
    needsAdd dest c = true ↔
      (sanitize c.name ∉ dest.existingCols ∧ sanitize c.name ≠ "id"
        ∧ sanitize c.name ≠ "created_at") := by
  simp [needsAdd, List.contains, List.elem_iff, and_assoc]

/-- C3 counterexample: the BigQuery `insert_database` issues no add-column
call when the table exists.  With a successful existence probe and a coerced
frame containing the column `b`, the only effect is the row load — no schema
modification of any kind is issued for the existing table. -/
theorem c3_counterexample :
    (bq_insert_database ⟨none, 5⟩ ⟨[⟨"b", .intp, [.vint 1]⟩]⟩).1
      = [BQEffect.load ⟨[⟨"id", .intp, [.vint 6]⟩, ⟨"b", .intp, [.vint 1]⟩]⟩] := by
  decide

/-- C3 (amended): for MySQL the claim holds — when the table exists,
`insert_database` issues exactly one add-column call, with the derived type
tag, for every coerced column whose sanitized name is neither among the
existing columns nor `id` nor `created_at`, it never creates the table, and
every add-column call targets a fresh (non-existing) name, so no existing
column's type is ever altered.  The BigQuery `insert_database`, however, has
no add-column path: when the existence probe succeeds it issues no schema
effect at all (in particular it also never alters an existing column). -/
theorem c3_schema_sync :
    (∀ (dest : MyDest) (df0 : DataFrame), dest.tableExists = true →
      (∀ defs, MyEffect.createTable defs ∉ mysql_insert_database dest df0)
      ∧ (∀ c ∈ (safe_convert_for_mysql (dropUnnamed df0)).cols,
          sanitize c.name ∉ dest.existingCols → sanitize c.name ≠ "id" →
          sanitize c.name ≠ "created_at" →
          MyEffect.addColumn (sanitize c.name) (get_mysql_type c.dtype c.vals)
            ∈ mysql_insert_database dest df0)
      ∧ (∀ nm tg, MyEffect.addColumn nm tg ∈ mysql_insert_database dest df0 →
          nm ∉ dest.existingCols ∧ nm ≠ "id" ∧ nm ≠ "created_at"
          ∧ ∃ c ∈ (safe_convert_for_mysql (dropUnnamed df0)).cols,
              nm = sanitize c.name ∧ tg = get_mysql_type c.dtype c.vals))
    ∧ (∀ (dest : BQDest) (df0 : DataFrame), dest.probe = none →
        ∀ schema, BQEffect.createTable schema ∉ (bq_insert_database dest df0).1) := by
  constructor
  · intro dest df0 ht
    refine ⟨?_, ?_, ?_⟩
    · intro defs hmem
      simp only [mysql_insert_database, ht, if_true, List.mem_append, List.mem_map] at hmem
      rcases hmem with ⟨c, _, hc⟩ | ⟨s, _, hs⟩
      · cases hc
      · cases hs
    · intro c hc h1 h2 h3
      have hneeds : needsAdd dest c = true := (needsAdd_iff dest c).mpr ⟨h1, h2, h3⟩
      simp only [mysql_insert_database, ht, if_true, List.mem_append]
      exact Or.inl (List.mem_map.mpr ⟨c, List.mem_filter.mpr ⟨hc, hneeds⟩, rfl⟩)
    · intro nm tg hmem
      simp only [mysql_insert_database, ht, if_true, List.mem_append, List.mem_map] at hmem
      rcases hmem with ⟨c, hcf, hc⟩ | ⟨s, _, hs⟩
      · obtain ⟨hcm, hneeds⟩ := List.mem_filter.mp hcf
        obtain ⟨h1, h2, h3⟩ := (needsAdd_iff dest c).mp hneeds
        cases hc
        exact ⟨h1, h2, h3, c, hcm, rfl, rfl⟩
      · cases hs
  · intro dest df0 hp schema hmem
    simp only [bq_insert_database, hp] at hmem
    by_cases hid : hasCol (safe_convert_for_parquet (dropUnnamed df0)) "id" = true
    · simp only [hid, if_true] at hmem
      cases hmem
    · simp only [Bool.not_eq_true] at hid
      simp only [hid, Bool.false_eq_true, if_false, List.nil_append,
        List.mem_singleton] at hmem
      cases hmem

/-- C3 witness: a MySQL run against an existing table with one known column
issues exactly the expected add-column call for the new column `b new`, no
create-table, and no call touching an existing column; the BigQuery run
against an existing table issues no create-table. -/
theorem c3_schema_sync_witness :
    MyEffect.addColumn "b_new" "SMALLINT"
        ∈ mysql_insert_database ⟨true, ["id", "created_at", "a"], 0⟩
            ⟨[⟨"a", .intp, [.vint 1]⟩, ⟨"b new", .intp, [.vint 200]⟩]⟩
    ∧ (∀ defs, MyEffect.createTable defs
        ∉ mysql_insert_database ⟨true, ["id", "created_at", "a"], 0⟩
            ⟨[⟨"a", .intp, [.vint 1]⟩, ⟨"b new", .intp, [.vint 200]⟩]⟩)
    ∧ (∀ schema, BQEffect.createTable schema
        ∉ (bq_insert_database ⟨none, 5⟩ ⟨[⟨"b", .intp, [.vint 1]⟩]⟩).1) := by
  have h := c3_schema_sync
  refine ⟨?_, fun defs => (h.1 ⟨true, ["id", "created_at", "a"], 0⟩
      ⟨[⟨"a", .intp, [.vint 1]⟩, ⟨"b new", .intp, [.vint 200]⟩]⟩ rfl).1 defs,
    fun schema => h.2 ⟨none, 5⟩ ⟨[⟨"b", .intp, [.vint 1]⟩]⟩ rfl schema⟩
  have hmem := (h.1 ⟨true, ["id", "created_at", "a"], 0⟩
      ⟨[⟨"a", .intp, [.vint 1]⟩, ⟨"b new", .intp, [.vint 200]⟩]⟩ rfl).2.1
      ⟨"b new", .intp, [.vint 200]⟩ (by decide) (by decide) (by decide) (by decide)
  exact hmem

/-- C4 counterexample: a floating-point column all of whose values are
missing.  Every non-null value (there are none) has no fractional part, yet
neither coercer produces a nullable integer column: the empty-sample rule
fires first and both backends render the column as text (`NaN` becomes the
string `"nan"`). -/
theorem c4_counterexample :
    (nonNulls ([.vnull .nan] : List Value)).all isIntegral = true
    ∧ coerceColumn .bq ⟨"x", .float, [.vnull .nan]⟩ = ⟨"x", .object, [.vstr "nan"]⟩
    ∧ (coerceColumn .bq ⟨"x", .float, [.vnull .nan]⟩).dtype ≠ DType.int64nullable
    ∧ coerceColumn .mysql ⟨"x", .float, [.vnull .nan]⟩ = ⟨"x", .object, [.vstr "nan"]⟩ := by
  refine ⟨by decide, by decide, by decide, by decide⟩

/-- C4 (amended): for every floating-point column **with at least one
non-null value**: if every non-null value has no fractional part, both
backends convert it to a nullable-integer column, preserving null positions,
and every present entry of the result is an integer; otherwise BigQuery
converts the column to text while MySQL leaves it as native floating-point.
(An all-null or empty float column instead falls under the empty-column rule
and is converted to text.) -/
theorem c4_float_policy :
    (∀ (b : Backend) (c : Column), c.dtype = DType.float →
      ¬ (nonNulls c.vals).length = 0 →
      (nonNulls c.vals).all isIntegral = true →
      coerceColumn b c = toInt64 c
      ∧ (toInt64 c).dtype = DType.int64nullable
      ∧ (∀ v ∈ c.vals, (toIntVal v).isNull = v.isNull)
      ∧ (∀ w ∈ (toInt64 c).vals, w.isNull = false → ∃ n, w = Value.vint n))
    ∧ (∀ (c : Column), c.dtype = DType.float →
      ¬ (nonNulls c.vals).length = 0 →
      (nonNulls c.vals).all isIntegral = false →
      coerceColumn .bq c = astypeStr c ∧ (astypeStr c).dtype = DType.object
      ∧ coerceColumn .mysql c = c) := by
  constructor
  · intro b c hdt h0 hint
    refine ⟨by simp [coerceColumn, h0, hdt, hint], rfl, fun v _ => by cases v <;> rfl, ?_⟩
    intro w hw hwnn
    obtain ⟨u, hu, rfl⟩ := List.mem_map.mp hw
    cases u with
    | vnull k => cases hwnn
    | vint n => exact ⟨n, rfl⟩
    | vfloat q => exact ⟨q.num, rfl⟩
    | vbool bv =>
      have : isIntegral (Value.vbool bv) = true :=
        List.all_eq_true.mp hint _ (List.mem_filter.mpr ⟨hu, rfl⟩)
      cases this
    | vstr s =>
      have : isIntegral (Value.vstr s) = true :=
        List.all_eq_true.mp hint _ (List.mem_filter.mpr ⟨hu, rfl⟩)
      cases this
    | vdt d =>
      have : isIntegral (Value.vdt d) = true :=
        List.all_eq_true.mp hint _ (List.mem_filter.mpr ⟨hu, rfl⟩)
      cases this
    | vtd q =>
      have : isIntegral (Value.vtd q) = true :=
        List.all_eq_true.mp hint _ (List.mem_filter.mpr ⟨hu, rfl⟩)
      cases this
    | vcomp s =>
      have : isIntegral (Value.vcomp s) = true :=
        List.all_eq_true.mp hint _ (List.mem_filter.mpr ⟨hu, rfl⟩)
      cases this
  · intro c hdt h0 hint
    exact ⟨by simp [coerceColumn, h0, hdt, hint], rfl, by simp [coerceColumn, h0, hdt, hint]⟩

/-- C4 witness: an all-integral float column with a null becomes the nullable
integer column; the non-integral `amount` column becomes text on BigQuery and
stays floating-point on MySQL. -/
theorem c4_float_policy_witness :
    coerceColumn .bq ⟨"x", .float, [.vfloat 2, .vnull .nan]⟩
      = toInt64 ⟨"x", .float, [.vfloat 2, .vnull .nan]⟩
    ∧ coerceColumn .bq ⟨"amount", .float, [.vfloat 10, .vfloat 20, .vfloat (Rat.mk' 61 2 (by norm_num) (by norm_num))]⟩
      = astypeStr ⟨"amount", .float, [.vfloat 10, .vfloat 20, .vfloat (Rat.mk' 61 2 (by norm_num) (by norm_num))]⟩
    ∧ coerceColumn .mysql ⟨"amount", .float, [.vfloat 10, .vfloat 20, .vfloat (Rat.mk' 61 2 (by norm_num) (by norm_num))]⟩
      = ⟨"amount", .float, [.vfloat 10, .vfloat 20, .vfloat (Rat.mk' 61 2 (by norm_num) (by norm_num))]⟩ :=
  ⟨(c4_float_policy.1 .bq _ rfl (by decide) (by decide)).1,
   (c4_float_policy.2 _ rfl (by decide) (by decide)).1,
   (c4_float_policy.2 _ rfl (by decide) (by decide)).2.2⟩

/-- C5: on every generic-object column the coercer attempts the fixed-format
timestamp parse (after the composite stringify step `objectPre`): if at least
one cell parses, the output maps every cell through parse-then-reformat —
parseable cells become the canonical string, unparseable cells become null;
if no cell parses, the whole column is stringified.  In particular the
`visit_date` column `["2024-01-15 10:30:00", "N/A"]` coerces to
`["2024-01-15 10:30:00", null]` on both backends. -/
theorem c5_object_datetime :
    (∀ (b : Backend) (c : Column), c.dtype = DType.object →
      ((∃ v ∈ objectPre c, (normVal v).isSome = true) →
        coerceColumn b c = ⟨c.name, .object, (objectPre c).map (fun v => dtRender (normVal v))⟩)
      ∧ ((∀ v ∈ objectPre c, normVal v = none) →
        coerceColumn b c = astypeStr ⟨c.name, c.dtype, objectPre c⟩))
    ∧ (∀ b : Backend,
        coerceColumn b ⟨"visit_date", .object, [.vstr "2024-01-15 10:30:00", .vstr "N/A"]⟩
          = ⟨"visit_date", .object, [.vstr "2024-01-15 10:30:00", .vnull .nan]⟩) := by
  constructor
  · intro b c hdt
    constructor
    · rintro ⟨v, hvm, hvs⟩
      have h0 : ¬ (nonNulls c.vals).length = 0 := by
        intro h0
        have hnil : nonNulls c.vals = [] := List.length_eq_zero.mp h0
        have hpre : objectPre c = c.vals := objectPre_of_none c (by rw [hnil]; rfl)
        rw [hpre] at hvm
        have hvnull : v.isNull = true := by
          by_contra hne
          have : v ∈ nonNulls c.vals := List.mem_filter.mpr ⟨hvm, by
            rw [Bool.not_eq_true] at hne
            simp [hne]⟩
          rw [hnil] at this
          cases this
        cases v <;> simp_all [normVal, Value.isNull]
      have hcount : 0 < ((objectPre c).map normVal).countP (fun o => o.isSome) :=
        List.countP_pos_iff.mpr ⟨normVal v, List.mem_map.mpr ⟨v, hvm, rfl⟩, by simpa using hvs⟩
      rw [show coerceColumn b c = objectStep c by simp [coerceColumn, h0, hdt]]
      simp only [objectStep]
      rw [if_pos hcount, List.map_map]
      rfl
    · intro hnone
      have hcount : ((objectPre c).map normVal).countP (fun o => o.isSome) = 0 := by
        rw [List.countP_eq_zero]
        intro o ho
        obtain ⟨v, hv, rfl⟩ := List.mem_map.mp ho
        simp [hnone v hv]
      by_cases h0 : (nonNulls c.vals).length = 0
      · have hnil : nonNulls c.vals = [] := List.length_eq_zero.mp h0
        have hpre : objectPre c = c.vals := objectPre_of_none c (by rw [hnil]; rfl)
        rw [show coerceColumn b c = astypeStr c by simp [coerceColumn, h0], hpre]
      · rw [show coerceColumn b c = objectStep c by simp [coerceColumn, h0, hdt]]
        simp only [objectStep, hcount]
        rw [if_neg (by simp)]
  · intro b
    cases b <;> decide

/-- C5 witness: the parse branch applied to the concrete `visit_date`
column. -/
theorem c5_object_datetime_witness :
    coerceColumn .bq ⟨"visit_date", .object, [.vstr "2024-01-15 10:30:00", .vstr "N/A"]⟩
      = ⟨"visit_date", .object,
          (objectPre ⟨"visit_date", .object, [.vstr "2024-01-15 10:30:00", .vstr "N/A"]⟩).map
            (fun v => dtRender (normVal v))⟩ :=
  (c5_object_datetime.1 .bq _ rfl).1 ⟨.vstr "2024-01-15 10:30:00", by decide, by decide⟩

/-- C6 counterexample: the MySQL integer ladder compares the signed maximum,
not the maximum magnitude.  The column `[-300]` has maximum magnitude 300,
which needs SMALLINT under the spec's rule, but the code compares
`max() = -300 ≤ 127` and picks TINYINT. -/
theorem c6_counterexample :
    get_mysql_type .int64nullable [.vint (-300)] = "TINYINT"
    ∧ maxAbsVal [.vint (-300)] = 300
    ∧ specMySQLIntTag (maxAbsVal [.vint (-300)]) = "SMALLINT" := by
  refine ⟨by decide, by decide, by decide⟩

/-- C6 (amended): the MySQL ladder is keyed on the column's signed maximum
(`column_values.max()`), which coincides with the spec's maximum-magnitude
rule exactly when no value is negative; under that condition the derived tag
is the smallest width holding the maximum magnitude, for both integer
dtypes.  BigQuery uses the generic `INTEGER` tag for both integer dtypes. -/
theorem c6_integer_ladder :
    (∀ (vs : List Value), (∀ n ∈ intVals vs, 0 ≤ n) →
      get_mysql_type .intp vs = specMySQLIntTag (maxAbsVal vs)
      ∧ get_mysql_type .int64nullable vs = specMySQLIntTag (maxAbsVal vs))
    ∧ get_bigquery_type .intp = "INTEGER" ∧ get_bigquery_type .int64nullable = "INTEGER" := by
  refine ⟨fun vs hpos => ⟨get_mysql_type_int_spec vs hpos, ?_⟩, rfl, rfl⟩
  rw [← get_mysql_type_int_eq]
  exact get_mysql_type_int_spec vs hpos

/-- C6 witness: on the all-nonnegative column `[200]` the code's tag agrees
with the spec's magnitude ladder and is SMALLINT. -/
theorem c6_integer_ladder_witness :
    get_mysql_type .intp [.vint 200] = specMySQLIntTag (maxAbsVal [.vint 200])
    ∧ specMySQLIntTag (maxAbsVal [.vint 200]) = "SMALLINT" :=
  ⟨(c6_integer_ladder.1 [.vint 200] (by decide)).1, by decide⟩

/-- C7: every column whose name contains `unnamed` (case-insensitively) is
dropped before coercion and is absent from the coerced table; every other
column is retained.  Consequently the BigQuery load frame and schema and the
MySQL append column lists and table definition carry exactly `id`, the
retained (per-backend sanitized) data columns, and `created_at`. -/
theorem c7_unnamed_dropped (df0 : DataFrame) :
    ((safe_convert_for_parquet (dropUnnamed df0)).cols.map (fun c => c.name)
      = (df0.cols.filter (fun c => !containsUnnamed c.name)).map (fun c => c.name))
    ∧ ((safe_convert_for_mysql (dropUnnamed df0)).cols.map (fun c => c.name)
      = (df0.cols.filter (fun c => !containsUnnamed c.name)).map (fun c => c.name))
    ∧ (∀ c ∈ df0.cols, containsUnnamed c.name = true →
        c.name ∉ (safe_convert_for_parquet (dropUnnamed df0)).cols.map (fun c => c.name))
    ∧ (∀ (dest : BQDest) (df2 : DataFrame),
        BQEffect.load df2 ∈ (bq_insert_database dest df0).1 →
        df2.cols.map (fun c => c.name)
          = "id" :: (df0.cols.filter (fun c => !containsUnnamed c.name)).map (fun c => c.name))
    ∧ (∀ (dest : BQDest) (schema : List (String × String)),
        BQEffect.createTable schema ∈ (bq_insert_database dest df0).1 →
        schema.map Prod.fst
          = "id" :: (df0.cols.filter (fun c => !containsUnnamed c.name)).map (fun c => c.name)
            ++ ["created_at"])
    ∧ (∀ (dest : MyDest) (cols : List String) (rows : List (List Value)),
        MyEffect.insertRows cols rows ∈ mysql_insert_database dest df0 →
        cols = (df0.cols.filter (fun c => !containsUnnamed c.name)).map
          (fun c => sanitize c.name))
    ∧ (∀ (dest : MyDest) (defs : List (String × String)),
        MyEffect.createTable defs ∈ mysql_insert_database dest df0 →
        defs.map Prod.fst
          = "id" :: (df0.cols.filter (fun c => !containsUnnamed c.name)).map
              (fun c => sanitize c.name) ++ ["created_at"]) := by
  have hbq : (safe_convert_for_parquet (dropUnnamed df0)).cols.map (fun c => c.name)
      = (df0.cols.filter (fun c => !containsUnnamed c.name)).map (fun c => c.name) :=
    safeConvert_names .bq (dropUnnamed df0)
  have hmy : (safe_convert_for_mysql (dropUnnamed df0)).cols.map (fun c => c.name)
      = (df0.cols.filter (fun c => !containsUnnamed c.name)).map (fun c => c.name) :=
    safeConvert_names .mysql (dropUnnamed df0)
  have hmysan : (safe_convert_for_mysql (dropUnnamed df0)).cols.map (fun c => sanitize c.name)
      = (df0.cols.filter (fun c => !containsUnnamed c.name)).map (fun c => sanitize c.name) := by
    have h1 : (safe_convert_for_mysql (dropUnnamed df0)).cols.map (fun c => sanitize c.name)
        = ((safe_convert_for_mysql (dropUnnamed df0)).cols.map (fun c => c.name)).map sanitize := by
      rw [List.map_map]
      rfl
    rw [h1, hmy, List.map_map]
    rfl
  refine ⟨hbq, hmy, ?_, ?_, ?_, ?_, ?_⟩
  · intro c hc hun hmem
    rw [hbq] at hmem
    obtain ⟨c', hc', hname⟩ := List.mem_map.mp hmem
    have : (!containsUnnamed c'.name) = true := (List.mem_filter.mp hc').2
    rw [hname, hun] at this
    cases this
  · intro dest df2 he
    obtain ⟨rfl, -⟩ := bq_load_shape dest df0 df2 he
    rw [sortById_names]
    show "id" :: (safe_convert_for_parquet (dropUnnamed df0)).cols.map (fun c => c.name) = _
    rw [hbq]
  · intro dest schema he
    obtain ⟨rfl, -⟩ := bq_createTable_shape dest df0 schema he
    show ("id", "INTEGER").fst :: (((safe_convert_for_parquet (dropUnnamed df0)).cols.map
        (fun c => (c.name, get_bigquery_type c.dtype))) ++ [("created_at", "TIMESTAMP")]).map Prod.fst
      = _
    rw [List.map_append, List.map_map]
    have : ((safe_convert_for_parquet (dropUnnamed df0)).cols.map
        (Prod.fst ∘ fun c => (c.name, get_bigquery_type c.dtype)))
        = (safe_convert_for_parquet (dropUnnamed df0)).cols.map (fun c => c.name) := rfl
    rw [this, hbq]
    rfl
  · intro dest cols rows he
    rw [mysql_insertRows_cols dest df0 cols rows he, hmysan]
  · intro dest defs he
    obtain ⟨rfl, -⟩ := mysql_createTable_defs dest df0 defs he
    show ("id", "INT AUTO_INCREMENT PRIMARY KEY").fst ::
        (((safe_convert_for_mysql (dropUnnamed df0)).cols.map
          (fun c => (sanitize c.name, get_mysql_type c.dtype c.vals)))
          ++ [("created_at", "TIMESTAMP DEFAULT CURRENT_TIMESTAMP")]).map Prod.fst
      = _
    rw [List.map_append, List.map_map]
    have : ((safe_convert_for_mysql (dropUnnamed df0)).cols.map
        (Prod.fst ∘ fun c => (sanitize c.name, get_mysql_type c.dtype c.vals)))
        = (safe_convert_for_mysql (dropUnnamed df0)).cols.map (fun c => sanitize c.name) := rfl
    rw [this, hmysan]
    rfl

/-- C7 witness: on a frame with columns `Unnamed: 0` and `keep me`, the
coerced table retains exactly `keep me` and the unnamed column is absent. -/
theorem c7_unnamed_dropped_witness :
    (safe_convert_for_parquet (dropUnnamed
        ⟨[⟨"Unnamed: 0", .intp, [.vint 1]⟩, ⟨"keep me", .intp, [.vint 2]⟩]⟩)).cols.map
        (fun c => c.name) = ["keep me"]
    ∧ "Unnamed: 0" ∉ (safe_convert_for_parquet (dropUnnamed
        ⟨[⟨"Unnamed: 0", .intp, [.vint 1]⟩, ⟨"keep me", .intp, [.vint 2]⟩]⟩)).cols.map
        (fun c => c.name) := by
  have h := c7_unnamed_dropped ⟨[⟨"Unnamed: 0", .intp, [.vint 1]⟩, ⟨"keep me", .intp, [.vint 2]⟩]⟩
  refine ⟨by rw [h.1]; decide, ?_⟩
  have habs := h.2.2.1 ⟨"Unnamed: 0", .intp, [.vint 1]⟩ (by decide) (by decide)
  exact habs

/-- C8: every failure of the BigQuery table-existence probe — whichever
exception it raises, not only not-found — sends `insert_database` down the
create-table path with the derived schema; a successful probe never does. -/
theorem c8_probe_failure_creates :
    (∀ (dest : BQDest) (df0 : DataFrame) (e : BQErr), dest.probe = some e →
      BQEffect.createTable (bqSchema (safe_convert_for_parquet (dropUnnamed df0)))
        ∈ (bq_insert_database dest df0).1)
    ∧ (∀ (dest : BQDest) (df0 : DataFrame), dest.probe = none →
      ∀ schema, BQEffect.createTable schema ∉ (bq_insert_database dest df0).1) := by
  constructor
  · intro dest df0 e hp
    by_cases hid : hasCol (safe_convert_for_parquet (dropUnnamed df0)) "id" <;>
      simp [bq_insert_database, hp, hid]
  · intro dest df0 hp schema hmem
    obtain ⟨-, e, hpe⟩ := bq_createTable_shape dest df0 schema hmem
    rw [hp] at hpe
    cases hpe

/-- C8 witness: a permission error on the probe — not a not-found — triggers
the create-table call. -/
theorem c8_probe_failure_creates_witness :
    BQEffect.createTable (bqSchema (safe_convert_for_parquet (dropUnnamed
        ⟨[⟨"a", .intp, [.vint 1]⟩]⟩)))
      ∈ (bq_insert_database ⟨some .permissionDenied, 0⟩ ⟨[⟨"a", .intp, [.vint 1]⟩]⟩).1 :=
  c8_probe_failure_creates.1 ⟨some .permissionDenied, 0⟩ ⟨[⟨"a", .intp, [.vint 1]⟩]⟩
    .permissionDenied rfl

/-- C9: the coercers are total functions on tables — the per-column `except`
handler means no column's failure escapes — and the returned table covers
every input column: same column count and the same names, for both
backends. -/
theorem c9_column_isolation (df : DataFrame) :
    (safe_convert_for_parquet df).cols.length = df.cols.length
    ∧ (safe_convert_for_parquet df).cols.map (fun c => c.name) = df.cols.map (fun c => c.name)
    ∧ (safe_convert_for_mysql df).cols.length = df.cols.length
    ∧ (safe_convert_for_mysql df).cols.map (fun c => c.name) = df.cols.map (fun c => c.name) := by
  refine ⟨?_, safeConvert_names .bq df, ?_, safeConvert_names .mysql df⟩ <;>
    simp [safe_convert_for_parquet, safe_convert_for_mysql]

theorem Heap.read_write_ne (h : Heap) (i r : Nat) (df : DataFrame) (hne : i ≠ r) :
    (h.write i df).read r = h.read r := by
  show (h.cells.set i df).getD r ⟨[]⟩ = h.cells.getD r ⟨[]⟩
  rw [List.getD_eq_getElem?_getD, List.getD_eq_getElem?_getD, List.getElem?_set_ne hne]

theorem Heap.read_append (h : Heap) (df : DataFrame) (r : Nat) (hr : r < h.cells.length) :
    (Heap.mk (h.cells ++ [df])).read r = h.read r := by
  show (h.cells ++ [df]).getD r ⟨[]⟩ = h.cells.getD r ⟨[]⟩
  exact List.getD_append _ _ _ _ hr

/-- C10: both `insert_database` bodies copy the caller's frame on entry and
apply every mutation (unnamed-column drop, in-place coercion, id insertion,
sort) to the copy: after the body runs, the caller's cell of the heap holds
exactly the frame it held before. -/
theorem c10_caller_frame_unchanged :
    (∀ (dest : BQDest) (h : Heap) (r : Nat), r < h.cells.length →
      (bq_insert_heap dest h r).1.read r = h.read r)
    ∧ (∀ (h : Heap) (r : Nat), r < h.cells.length →
      (mysql_insert_heap h r).1.read r = h.read r) := by
  constructor
  · intro dest h r hr
    have hne : h.cells.length ≠ r := by omega
    simp only [bq_insert_heap, Heap.alloc]
    rw [Heap.read_write_ne _ _ _ _ hne, Heap.read_write_ne _ _ _ _ hne,
      Heap.read_write_ne _ _ _ _ hne, Heap.read_write_ne _ _ _ _ hne]
    exact Heap.read_append h _ r hr
  · intro h r hr
    have hne : h.cells.length ≠ r := by omega
    simp only [mysql_insert_heap, Heap.alloc]
    rw [Heap.read_write_ne _ _ _ _ hne, Heap.read_write_ne _ _ _ _ hne]
    exact Heap.read_append h _ r hr

/-- C10 witness: a one-cell heap holding a one-column frame is unchanged at
the caller's cell by both insert bodies. -/
theorem c10_caller_frame_unchanged_witness :
    (bq_insert_heap ⟨none, 0⟩ ⟨[⟨[⟨"a", .intp, [.vint 1]⟩]⟩]⟩ 0).1.read 0
      = Heap.read ⟨[⟨[⟨"a", .intp, [.vint 1]⟩]⟩]⟩ 0
    ∧ (mysql_insert_heap ⟨[⟨[⟨"a", .intp, [.vint 1]⟩]⟩]⟩ 0).1.read 0
      = Heap.read ⟨[⟨[⟨"a", .intp, [.vint 1]⟩]⟩]⟩ 0 :=
  ⟨c10_caller_frame_unchanged.1 ⟨none, 0⟩ ⟨[⟨[⟨"a", .intp, [.vint 1]⟩]⟩]⟩ 0 (by decide),
   c10_caller_frame_unchanged.2 ⟨[⟨[⟨"a", .intp, [.vint 1]⟩]⟩]⟩ 0 (by decide)⟩

end DataStore
